import Mathlib

/-!
Verification of the thin cache-adapter layer of the
elysia-nextjs-tanstack-query repository and of its benchmark runners.

The adapter module itself (lib/hooks.ts, exporting useApiQuery,
useApiMutation and useApi) is not present in the available source tree;
only its unit tests, its callers and the benchmark harnesses are.  The
adapter and the cache-engine contract it delegates to are therefore
modelled from the specification, faithful to its words; every such
definition carries a doc comment starting with the marker for a
spec-modelled item.  The benchmark runner, by contrast, is embedded
directly from the source files present in the tree.
-/

namespace ElysiaAdapter

/-- Modelled from the spec: a primitive component of a CacheKey.  The
spec requires type-sensitive structural comparison, so a numeric
component and a string component never compare equal (no coercion). -/
inductive KeyPart where
  | str (s : String)
  | num (n : Int)
  | bool (b : Bool)
deriving DecidableEq

/-- Modelled from the spec: a CacheKey is an ordered sequence of
primitive values acting as identity of a cached read. -/
abbrev CacheKey := List KeyPart

/-- Modelled from the spec: type-sensitive comparison of two key
components; components of different primitive kinds are never equal. -/
def partEq : KeyPart → KeyPart → Bool
  | KeyPart.str a, KeyPart.str b => a == b
  | KeyPart.num a, KeyPart.num b => a == b
  | KeyPart.bool a, KeyPart.bool b => a == b
  | _, _ => false

/-- Modelled from the spec: element-wise structural equality of cache
keys; the key is positional, so order and length both matter. -/
def keyEq : CacheKey → CacheKey → Bool
  | [], [] => true
  | a :: as, b :: bs => partEq a b && keyEq as bs
  | _, _ => false

/-- Modelled from the spec: the data/error envelope returned by the
Request Client for every call; both fields are nullable and `none`
stands for the JavaScript null. -/
structure Envelope (T E : Type) where
  data : Option T
  error : Option E
deriving DecidableEq

/-- Modelled from the spec: the Result Normalizer of the absent adapter
module lib/hooks.ts.  It raises the error value into the throw channel
exactly when the error field of the envelope is non-null, regardless of
the data field, and otherwise returns the data field unchanged, null
included. -/
def normalize {T E : Type} (env : Envelope T E) : Except E (Option T) :=
  match env.error with
  | some e => Except.error e
  | none => Except.ok env.data

/-- Modelled from the spec: lifecycle status of a cached read. -/
inductive QStatus where
  | pending
  | success
  | error
deriving DecidableEq

/-- Modelled from the spec: fetch status of a cached read. -/
inductive FStatus where
  | idle
  | fetching
deriving DecidableEq

/-- Modelled from the spec: per-key options forwarded to the Cache
Engine.  staleTime is a window in milliseconds, `none` standing for
Infinity; enabled gates automatic triggering. -/
structure EngineOptions where
  staleTime : Option Nat
  enabled : Bool

/-- Modelled from the spec: the Cache Engine entry kept for one
CacheKey.  value is the cached payload (`none` while nothing was ever
stored, i.e. the JavaScript undefined); fetchCount counts invocations
of the query function for this key; updatedAt is the time of the last
successful settlement; fetchedFromNetwork records whether the current
value came from a fetch settlement rather than a direct write. -/
structure Entry (A E : Type) where
  value : Option A
  error : Option E
  status : QStatus
  fetchStatus : FStatus
  fetchCount : Nat
  updatedAt : Option Nat
  fetchedFromNetwork : Bool
deriving DecidableEq

/-- Modelled from the spec: the Cache Engine store, a mapping from
CacheKey to entry, keys compared structurally by keyEq. -/
def Client (A E : Type) : Type := List (CacheKey × Entry A E)

/-- A Cache Engine store holding no entries. -/
def emptyClient (A E : Type) : Client A E := []

/-- Look an entry up by structural key equality. -/
def lookupEntry {A E : Type} : Client A E → CacheKey → Option (Entry A E)
  | [], _ => none
  | (k', e) :: rest, k => if keyEq k' k then some e else lookupEntry rest k

/-- Insert or overwrite the entry stored under a key. -/
def setEntry {A E : Type} : Client A E → CacheKey → Entry A E → Client A E
  | [], k, e => [(k, e)]
  | (k', e') :: rest, k, e =>
      if keyEq k' k then (k', e) :: rest else (k', e') :: setEntry rest k e

/-- Modelled from the spec: the entry created on first subscription to
a key; fetching starts at once exactly when the read is enabled. -/
def freshEntry (A E : Type) (fetching : Bool) : Entry A E :=
  { value := none
    error := none
    status := QStatus.pending
    fetchStatus := if fetching then FStatus.fetching else FStatus.idle
    fetchCount := if fetching then 1 else 0
    updatedAt := none
    fetchedFromNetwork := false }

/-- Modelled from the spec: an entry is stale at time t when it never
settled successfully, or when its staleness window (staleTime, with
`none` = Infinity) has elapsed since the last successful settlement. -/
def isStale {A E : Type} (t : Nat) (e : Entry A E) (staleTime : Option Nat) : Bool :=
  match e.updatedAt with
  | none => true
  | some u =>
      match staleTime with
      | none => false
      | some s => decide (u + s ≤ t)

/-- Modelled from the spec: activation (mount) of a managed read for a
key at time t.  On first activation an entry is created and, when
enabled, exactly one fetch starts.  On a later activation a fetch
starts only when the read is enabled, no fetch is already in flight
(de-duplication) and the entry is stale; cached data is kept while a
background refetch is in flight. -/
def mount {A E : Type} (t : Nat) (k : CacheKey) (o : EngineOptions)
    (c : Client A E) : Client A E :=
  match lookupEntry c k with
  | none => setEntry c k (freshEntry A E o.enabled)
  | some e =>
      if o.enabled && decide (e.fetchStatus = FStatus.idle) && isStale t e o.staleTime then
        setEntry c k
          { e with fetchStatus := FStatus.fetching, fetchCount := e.fetchCount + 1 }
      else c

/-- Modelled from the spec: settlement of an in-flight fetch through
the throw-on-error channel of the Cache Engine.  On success the
unwrapped payload is stored and the entry marked fetched from the
network; on error the error-state tracking activates and the cached
value is left untouched. -/
def settleFetch {A E : Type} (t : Nat) (k : CacheKey) (r : Except E A)
    (c : Client A E) : Client A E :=
  match lookupEntry c k with
  | none => c
  | some e =>
      match r with
      | Except.ok d =>
          setEntry c k
            { e with value := some d, error := none, status := QStatus.success,
                     fetchStatus := FStatus.idle, updatedAt := some t,
                     fetchedFromNetwork := true }
      | Except.error err =>
          setEntry c k
            { e with error := some err, status := QStatus.error,
                     fetchStatus := FStatus.idle }

/-- Modelled from the spec: settlement of a useApiQuery fetch — the
envelope produced by the query function is piped through the Result
Normalizer into the Cache Engine, which never sees the envelope
itself. -/
def settleQuery {T E : Type} (t : Nat) (k : CacheKey) (env : Envelope T E)
    (c : Client (Option T) E) : Client (Option T) E :=
  settleFetch t k (normalize env) c

/-- Modelled from the spec: direct synchronous overwrite of the cached
value for a key (optimistic update); it invokes no query function and
does not mark the entry as fetched from the network. -/
def setData {A E : Type} (t : Nat) (k : CacheKey) (v : A) (c : Client A E) :
    Client A E :=
  match lookupEntry c k with
  | none =>
      setEntry c k
        { freshEntry A E false with value := some v, status := QStatus.success,
                                    updatedAt := some t }
  | some e =>
      setEntry c k
        { e with value := some v, error := none, status := QStatus.success,
                 updatedAt := some t }

/-- Modelled from the spec: synchronous read of the current cached
value of a key; no subscription is created and no fetch triggered. -/
def getData {A E : Type} (c : Client A E) (k : CacheKey) : Option A :=
  match lookupEntry c k with
  | none => none
  | some e => e.value

/-- Modelled from the spec: the per-key read state handed to
subscribers of useApiQuery: data is undefined (`none`) until a first
successful settlement stored a value. -/
structure QueryState (A E : Type) where
  data : Option A
  error : Option E
  status : QStatus
  fetchStatus : FStatus
deriving DecidableEq

/-- The subscriber-visible state of a key, derived from the store. -/
def queryState {A E : Type} (c : Client A E) (k : CacheKey) : QueryState A E :=
  match lookupEntry c k with
  | none =>
      { data := none, error := none, status := QStatus.pending,
        fetchStatus := FStatus.idle }
  | some e =>
      { data := e.value, error := e.error, status := e.status,
        fetchStatus := e.fetchStatus }

/-- Number of query-function invocations recorded for a key. -/
def fetchCount {A E : Type} (c : Client A E) (k : CacheKey) : Nat :=
  match lookupEntry c k with
  | none => 0
  | some e => e.fetchCount

/-- Whether the value under a key is marked as fetched from the
network. -/
def fetchedFlag {A E : Type} (c : Client A E) (k : CacheKey) : Bool :=
  match lookupEntry c k with
  | none => false
  | some e => e.fetchedFromNetwork

/-- Modelled from the spec: the per-invocation state record of the
Mutation Adapter; data is `none` until a successful settlement stores
the unwrapped payload. -/
structure MutationState (T E : Type) where
  data : Option (Option T)
  error : Option E
  isPending : Bool
  isSuccess : Bool
  isError : Bool
deriving DecidableEq

/-- The mutation state created when the hook is instantiated. -/
def mutIdle (T E : Type) : MutationState T E :=
  { data := none, error := none, isPending := false, isSuccess := false,
    isError := false }

/-- Modelled from the spec: the state reset performed at the start of
each mutate call, entering the pending phase. -/
def mutStart {T E : Type} (st : MutationState T E) : MutationState T E :=
  { st with data := none, error := none, isPending := true,
            isSuccess := false, isError := false }

/-- Modelled from the spec: settlement of a mutation.  The envelope
goes through the Result Normalizer; pending moves to success setting
the unwrapped data and clearing the error, or to error setting the
normalized error. -/
def settleMut {T E : Type} (env : Envelope T E) (st : MutationState T E) :
    MutationState T E :=
  match normalize env with
  | Except.ok d =>
      { st with data := some d, error := none, isPending := false,
                isSuccess := true, isError := false }
  | Except.error e =>
      { st with error := some e, isPending := false, isSuccess := false,
                isError := true }

/-- Modelled from the spec: the caller-visible outcome of mutateAsync —
it resolves to the unwrapped data on success and re-raises the
normalized error on failure. -/
def mutateAsyncOutcome {T E : Type} (env : Envelope T E) : Except E (Option T) :=
  normalize env

/-- Modelled from the spec: the caller-visible outcome of mutate — the
call is fired and any rejection of the underlying settlement is
swallowed, never surfacing to the caller. -/
def mutateOutcome {T E : Type} (env : Envelope T E) : Except E Unit :=
  match mutateAsyncOutcome env with
  | Except.ok _ => Except.ok ()
  | Except.error _ => Except.ok ()

/-- Modelled from the spec: the observable events of one mutation
settlement, in order — the state transition, then at most one callback
carrying the normalized data or error together with the variables and
the context. -/
inductive MutEvent (T E B C : Type) where
  | transitioned (st : MutationState T E)
  | callSuccess (d : Option T) (vars : B) (ctx : C)
  | callError (e : E) (vars : B) (ctx : C)
deriving DecidableEq

/-- Whether an observable mutation event is a callback invocation. -/
def isCallbackEvent {T E B C : Type} : MutEvent T E B C → Bool
  | MutEvent.transitioned _ => false
  | MutEvent.callSuccess _ _ _ => true
  | MutEvent.callError _ _ _ => true

/-- Modelled from the spec: the ordered trace of one mutation
settlement — the state transitions first, then exactly one of the
onSuccess/onError callbacks fires, with the normalized data or error,
the variables and the context. -/
def mutSettleTrace {T E B C : Type} (env : Envelope T E) (vars : B) (ctx : C)
    (st : MutationState T E) : List (MutEvent T E B C) :=
  let st' := settleMut env st
  match normalize env with
  | Except.ok d => [MutEvent.transitioned st', MutEvent.callSuccess d vars ctx]
  | Except.error e => [MutEvent.transitioned st', MutEvent.callError e vars ctx]

/-- The payload type of the concrete mutation scenario of the spec and
the unit tests: a user record with a name field. -/
structure User where
  name : String
deriving DecidableEq

end ElysiaAdapter

namespace Benchmark

/-- The statistics record produced by the benchmark runners
(runHooksBenchmark in src/unnamed/part_000, runBenchmark in
src/__tests__/benchmark/report.ts, and runBenchmark in
src/__tests__/benchmark/api-benchmark.ts, where the operation fields
are named totalRequests / successfulRequests / failedRequests /
requestsPerSecond). -/
structure BenchmarkResult where
  totalOperations : Nat
  successfulOperations : Nat
  failedOperations : Nat
  durationMs : Rat
  operationsPerSecond : Rat
  avgLatencyMs : Rat
  minLatencyMs : Rat
  maxLatencyMs : Rat
  p50LatencyMs : Rat
  p95LatencyMs : Rat
  p99LatencyMs : Rat
deriving DecidableEq

/-- One step of the benchmark loop body: a successful operation pushes
its latency and bumps successCount; a failed one bumps failCount. -/
def loopStep (acc : List Rat × Nat × Nat) (op : Option Rat) :
    List Rat × Nat × Nat :=
  match op with
  | some l => (acc.1 ++ [l], acc.2.1 + 1, acc.2.2)
  | none => (acc.1, acc.2.1, acc.2.2 + 1)

/-- The benchmark while-loop, as a fold over the sequence of operation
outcomes observed during the run: `some l` is an operation that
succeeded with latency l, `none` one that threw.  In the concurrent
runner of api-benchmark.ts the sequence is the interleaving of the
workers, which share the same three accumulators. -/
def runLoop (ops : List (Option Rat)) : List Rat × Nat × Nat :=
  ops.foldl loopStep ([], 0, 0)

/-- Embeds runHooksBenchmark (src/unnamed/part_000 lines 74-118); the
same statistics computation appears verbatim in runBenchmark of
report.ts lines 85-131 and of api-benchmark.ts lines 48-109.  The
latency list is sorted ascending; each indexing expression follows the
source (a JavaScript out-of-range index yields undefined, turned into
0 by the nullish-coalescing operator, which List.getD reproduces; the
percentile index floor of length times a percentage is the integer
division below). -/
def runBenchmark (ops : List (Option Rat)) (durationMs : Rat) : BenchmarkResult :=
  let st := runLoop ops
  let latencies := st.1.insertionSort (fun a b => a ≤ b)
  let successCount := st.2.1
  let failCount := st.2.2
  let totalOps := successCount + failCount
  { totalOperations := totalOps
    successfulOperations := successCount
    failedOperations := failCount
    durationMs := durationMs
    operationsPerSecond := ((totalOps : Rat) / durationMs) * 1000
    avgLatencyMs :=
      if 0 < latencies.length then latencies.sum / (latencies.length : Rat) else 0
    minLatencyMs := latencies.getD 0 0
    maxLatencyMs := latencies.getD (latencies.length - 1) 0
    p50LatencyMs := latencies.getD (latencies.length * 50 / 100) 0
    p95LatencyMs := latencies.getD (latencies.length * 95 / 100) 0
    p99LatencyMs := latencies.getD (latencies.length * 99 / 100) 0 }

end Benchmark

namespace ElysiaAdapter

@[simp] theorem partEq_self (p : KeyPart) : partEq p p = true := by
  cases p <;> simp [partEq]

@[simp] theorem keyEq_self (k : CacheKey) : keyEq k k = true := by
  induction k with
  | nil => rfl
  | cons a as ih => simp [keyEq, ih]

theorem partEq_iff (a b : KeyPart) : partEq a b = true ↔ a = b := by
  cases a <;> cases b <;> simp [partEq]

theorem keyEq_iff (k₁ k₂ : CacheKey) : keyEq k₁ k₂ = true ↔ k₁ = k₂ := by
  induction k₁ generalizing k₂ with
  | nil => cases k₂ <;> simp [keyEq]
  | cons a as ih =>
      cases k₂ with
      | nil => simp [keyEq]
      | cons b bs => simp [keyEq, partEq_iff, ih]

theorem keyEq_eq_decide (k₁ k₂ : CacheKey) : keyEq k₁ k₂ = decide (k₁ = k₂) := by
  rcases h : keyEq k₁ k₂ with _ | _
  · have hne : ¬ k₁ = k₂ := by
      intro he
      subst he
      rw [keyEq_self] at h
      cases h
    simp [hne]
  · have he : k₁ = k₂ := (keyEq_iff k₁ k₂).mp h
    simp [he]

theorem lookupEntry_setEntry {A E : Type} (c : Client A E) (k k' : CacheKey)
    (e : Entry A E) :
    lookupEntry (setEntry c k e) k' =
      if k = k' then some e else lookupEntry c k' := by
  induction c with
  | nil => simp [setEntry, lookupEntry, keyEq_eq_decide]
  | cons p rest ih =>
      obtain ⟨k₀, e₀⟩ := p
      by_cases h₀ : k₀ = k
      · subst h₀
        by_cases h₁ : k₀ = k'
        · subst h₁
          simp [setEntry, lookupEntry, keyEq_eq_decide]
        · simp [setEntry, lookupEntry, keyEq_eq_decide, h₁]
      · by_cases h₁ : k₀ = k'
        · subst h₁
          have hne : ¬ k = k₀ := fun he => h₀ he.symm
          simp [setEntry, lookupEntry, keyEq_eq_decide, h₀, hne]
        · simp [setEntry, lookupEntry, keyEq_eq_decide, h₀, h₁, ih]

@[simp] theorem lookupEntry_setEntry_self {A E : Type} (c : Client A E)
    (k : CacheKey) (e : Entry A E) :
    lookupEntry (setEntry c k e) k = some e := by
  rw [lookupEntry_setEntry]
  simp

@[simp] theorem lookupEntry_empty {A E : Type} (k : CacheKey) :
    lookupEntry (emptyClient A E) k = none := rfl

/-- Claim C9: cache-key identity is type-sensitive structural equality
on an ordered sequence — two keys address the same cache entry exactly
when they are equal element-wise without coercion, so the keys
(user, 1) and (user, "1") are distinct entries and reordering the
elements yields a different key. -/
theorem cacheKey_structural_identity :
    (∀ k₁ k₂ : CacheKey, keyEq k₁ k₂ = true ↔ k₁ = k₂)
    ∧ keyEq [KeyPart.str "user", KeyPart.num 1]
        [KeyPart.str "user", KeyPart.str "1"] = false
    ∧ keyEq [KeyPart.str "user", KeyPart.num 1]
        [KeyPart.num 1, KeyPart.str "user"] = false
    ∧ (∀ (A E : Type) (k₁ k₂ : CacheKey) (v : A) (t : Nat),
        getData (setData t k₁ v (emptyClient A E)) k₂ =
          if keyEq k₁ k₂ then some v else none) := by
  refine ⟨keyEq_iff, by decide, by decide, ?_⟩
  intro A E k₁ k₂ v t
  simp only [setData, lookupEntry_empty, getData, emptyClient, setEntry,
    lookupEntry, keyEq_eq_decide]
  by_cases h : k₁ = k₂
  · subst h
    simp
  · simp [h]

/-- Claim C1: the Result Normalizer raises the error value exactly when
the error field of the envelope is non-null — including non-null falsy
error values, and regardless of the data field — and otherwise returns
the data field unchanged, so null and falsy payloads are delivered as
legitimate successes; the Cache Engine stores the unwrapped data, never
the envelope, and its error tracking activates on every error
settlement. -/
theorem resultNormalizer_error_iff_nonnull :
    (∀ (T E : Type) (d : Option T) (e : E),
        normalize (Envelope.mk d (some e)) = Except.error e)
    ∧ (∀ (T E : Type) (d : Option T),
        normalize (Envelope.mk d (none : Option E)) = Except.ok d)
    ∧ (∀ (T E : Type) (d : Option T) (k : CacheKey) (s : Option Nat) (t₀ t₁ : Nat),
        queryState (settleQuery t₁ k (Envelope.mk d (none : Option E))
            (mount t₀ k (EngineOptions.mk s true) (emptyClient (Option T) E))) k =
          QueryState.mk (some d) none QStatus.success FStatus.idle)
    ∧ (∀ (T E : Type) (d : Option T) (e : E) (k : CacheKey) (s : Option Nat)
        (t₀ t₁ : Nat),
        (queryState (settleQuery t₁ k (Envelope.mk d (some e))
            (mount t₀ k (EngineOptions.mk s true) (emptyClient (Option T) E))) k).status
            = QStatus.error
        ∧ (queryState (settleQuery t₁ k (Envelope.mk d (some e))
            (mount t₀ k (EngineOptions.mk s true) (emptyClient (Option T) E))) k).error
            = some e) := by
  refine ⟨fun _ _ _ _ => rfl, fun _ _ _ => rfl, ?_, ?_⟩
  · intro T E d k s t₀ t₁
    simp [mount, settleQuery, settleFetch, normalize, emptyClient, lookupEntry,
      setEntry, queryState, freshEntry]
  · intro T E d e k s t₀ t₁
    constructor <;>
      simp [mount, settleQuery, settleFetch, normalize, emptyClient, lookupEntry,
        setEntry, queryState, freshEntry]

/-- Claim C2: for every successful envelope with payload D, a useApiQuery
activation settles to status success with the unwrapped payload D as
data and no error; before the first successful settlement for the key,
data is undefined. -/
theorem useApiQuery_success_lifecycle :
    ∀ (T E : Type) (D : Option T) (k : CacheKey) (s : Option Nat) (t₀ t₁ : Nat),
      (queryState (mount t₀ k (EngineOptions.mk s true)
          (emptyClient (Option T) E)) k).data = none
      ∧ queryState (settleQuery t₁ k (Envelope.mk D (none : Option E))
            (mount t₀ k (EngineOptions.mk s true) (emptyClient (Option T) E))) k =
          QueryState.mk (some D) none QStatus.success FStatus.idle := by
  intro T E D k s t₀ t₁
  constructor
  · simp [mount, emptyClient, lookupEntry, setEntry, queryState, freshEntry]
  · simp [mount, settleQuery, settleFetch, normalize, emptyClient, lookupEntry,
      setEntry, queryState, freshEntry]

/-- Claim C3: for every error envelope with null data and error E, a
useApiQuery activation settles to status error with the normalized
error value surfaced in the query state and data still undefined. -/
theorem useApiQuery_error_lifecycle :
    ∀ (T E : Type) (e : E) (k : CacheKey) (s : Option Nat) (t₀ t₁ : Nat),
      queryState (settleQuery t₁ k (Envelope.mk (none : Option T) (some e))
          (mount t₀ k (EngineOptions.mk s true) (emptyClient (Option T) E))) k =
        QueryState.mk none (some e) QStatus.error FStatus.idle := by
  intro T E e k s t₀ t₁
  simp [mount, settleQuery, settleFetch, normalize, emptyClient, lookupEntry,
    setEntry, queryState, freshEntry]

/-- Claim C4: idempotence of cached reads — after a first activation
settles successfully, a second activation of the same key within the
staleness window (staleTime Infinity, here `none`, or a finite window
not yet elapsed) triggers no further query-function invocation, so the
total count stays one, and the second activation observes the cached
data immediately. -/
theorem useApiQuery_cached_read_idempotent :
    ∀ (T E : Type) (D : Option T) (k : CacheKey) (s : Option Nat) (t₀ t₁ t₂ : Nat),
      (∀ n, s = some n → t₂ < t₁ + n) →
      fetchCount
          (mount t₂ k (EngineOptions.mk s true)
            (settleQuery t₁ k (Envelope.mk D (none : Option E))
              (mount t₀ k (EngineOptions.mk s true) (emptyClient (Option T) E)))) k
        = 1
      ∧ (queryState
          (mount t₂ k (EngineOptions.mk s true)
            (settleQuery t₁ k (Envelope.mk D (none : Option E))
              (mount t₀ k (EngineOptions.mk s true) (emptyClient (Option T) E)))) k).data
        = some D := by
  intro T E D k s t₀ t₁ t₂ h
  cases s with
  | none =>
      constructor <;>
        simp [mount, settleQuery, settleFetch, normalize, emptyClient,
          lookupEntry, setEntry, queryState, freshEntry, fetchCount, isStale]
  | some n =>
      have hn : ¬ (t₁ + n ≤ t₂) := by
        have := h n rfl
        omega
      constructor <;>
        simp [mount, settleQuery, settleFetch, normalize, emptyClient,
          lookupEntry, setEntry, queryState, freshEntry, fetchCount, isStale, hn]

/-- Witness for claim C4 at a concrete key, payload and staleness
window. -/
theorem useApiQuery_cached_read_idempotent_witness :
    fetchCount
        (mount 10 [KeyPart.str "cached-key"] (EngineOptions.mk (some 60000) true)
          (settleQuery 5 [KeyPart.str "cached-key"]
            (Envelope.mk (some "Hello Nextjs") (none : Option String))
            (mount 0 [KeyPart.str "cached-key"] (EngineOptions.mk (some 60000) true)
              (emptyClient (Option String) String))))
        [KeyPart.str "cached-key"] = 1
    ∧ (queryState
        (mount 10 [KeyPart.str "cached-key"] (EngineOptions.mk (some 60000) true)
          (settleQuery 5 [KeyPart.str "cached-key"]
            (Envelope.mk (some "Hello Nextjs") (none : Option String))
            (mount 0 [KeyPart.str "cached-key"] (EngineOptions.mk (some 60000) true)
              (emptyClient (Option String) String))))
        [KeyPart.str "cached-key"]).data = some (some "Hello Nextjs") :=
  useApiQuery_cached_read_idempotent String String (some "Hello Nextjs")
    [KeyPart.str "cached-key"] (some 60000) 0 5 10
    (by intro n hn; cases hn; omega)

/-- The store reachable by any finite sequence of disabled activations
of one key is either empty or the single idle entry of that key. -/
theorem disabledMounts_cases {A E : Type} (k : CacheKey) (s : Option Nat) :
    ∀ (ts : List Nat) (c : Client A E),
      (c = emptyClient A E ∨ c = [(k, freshEntry A E false)]) →
      (ts.foldl (fun c' t' => mount t' k (EngineOptions.mk s false) c') c
          = emptyClient A E
        ∨ ts.foldl (fun c' t' => mount t' k (EngineOptions.mk s false) c') c
          = [(k, freshEntry A E false)]) := by
  intro ts
  induction ts with
  | nil => intro c h; exact h
  | cons t ts ih =>
      intro c h
      apply ih
      rcases h with h | h <;> subst h
      · right
        simp [mount, emptyClient, lookupEntry, setEntry]
      · right
        simp [mount, lookupEntry, freshEntry]

/-- Claim C5: while the enabled option is false, no sequence of
activations of a key ever invokes the query function and the read stays
in idle fetch status; the first activation with enabled true then
triggers exactly one invocation. -/
theorem useApiQuery_enabled_gate :
    ∀ (A E : Type) (ts : List Nat) (t : Nat) (k : CacheKey) (s : Option Nat),
      fetchCount
          (ts.foldl (fun c' t' => mount t' k (EngineOptions.mk s false) c')
            (emptyClient A E)) k = 0
      ∧ (queryState
          (ts.foldl (fun c' t' => mount t' k (EngineOptions.mk s false) c')
            (emptyClient A E)) k).fetchStatus = FStatus.idle
      ∧ fetchCount
          (mount t k (EngineOptions.mk s true)
            (ts.foldl (fun c' t' => mount t' k (EngineOptions.mk s false) c')
              (emptyClient A E))) k = 1 := by
  intro A E ts t k s
  rcases disabledMounts_cases k s ts (emptyClient A E) (Or.inl rfl) with h | h <;>
    rw [h]
  · refine ⟨rfl, rfl, ?_⟩
    simp [mount, emptyClient, lookupEntry, setEntry, fetchCount, freshEntry]
  · refine ⟨?_, ?_, ?_⟩ <;>
      simp [mount, lookupEntry, setEntry, fetchCount, queryState, freshEntry,
        isStale]

/-- Claim C6: round-trip of the cache utilities — writing a value under
a key and reading it back returns that value synchronously, with no
query-function invocation recorded at any key and without marking the
entry as fetched from the network. -/
theorem setData_getData_roundtrip :
    ∀ (A E : Type) (c : Client A E) (k : CacheKey) (v : A) (t : Nat),
      getData (setData t k v c) k = some v
      ∧ (∀ k', fetchCount (setData t k v c) k' = fetchCount c k')
      ∧ fetchedFlag (setData t k v c) k = fetchedFlag c k := by
  intro A E c k v t
  rcases hl : lookupEntry c k with _ | e
  · refine ⟨?_, ?_, ?_⟩
    · simp [setData, hl, getData]
    · intro k'
      by_cases hk : k = k'
      · subst hk
        simp [setData, hl, fetchCount, freshEntry]
      · simp [setData, hl, fetchCount, lookupEntry_setEntry, hk]
    · simp [setData, hl, fetchedFlag, freshEntry]
  · refine ⟨?_, ?_, ?_⟩
    · simp [setData, hl, getData]
    · intro k'
      by_cases hk : k = k'
      · subst hk
        simp [setData, hl, fetchCount]
      · simp [setData, hl, fetchCount, lookupEntry_setEntry, hk]
    · simp [setData, hl, fetchedFlag]

/-- Claim C7: mutate never surfaces a rejection to the caller — on an
error envelope the normalized error lands only in the mutation state,
with isError set — whereas mutateAsync resolves to the unwrapped data
on success and re-raises the normalized error on failure. -/
theorem useApiMutation_outcomes :
    ∀ (T E : Type) (d : Option T) (e : E) (st : MutationState T E),
      mutateOutcome (Envelope.mk d (some e)) = Except.ok ()
      ∧ mutateOutcome (Envelope.mk d (none : Option E)) = Except.ok ()
      ∧ (settleMut (Envelope.mk d (some e)) st).error = some e
      ∧ (settleMut (Envelope.mk d (some e)) st).isError = true
      ∧ mutateAsyncOutcome (Envelope.mk d (none : Option E)) = Except.ok d
      ∧ mutateAsyncOutcome (Envelope.mk d (some e)) = Except.error e := by
  intro T E d e st
  refine ⟨rfl, rfl, ?_, ?_, rfl, rfl⟩ <;> simp [settleMut, normalize]

/-- Claim C8: every mutation settlement fires exactly one of the
onSuccess/onError callbacks, exactly once, after the mutation state has
already transitioned, handing it the normalized data or error together
with the variables and the context; in particular a settlement with
payload the user named X reaches isSuccess with that data and fires
onSuccess once with it. -/
theorem useApiMutation_callback_discipline :
    (∀ (T E B C : Type) (d : Option T) (vars : B) (ctx : C)
        (st : MutationState T E),
        mutSettleTrace (Envelope.mk d (none : Option E)) vars ctx st =
          [MutEvent.transitioned (settleMut (Envelope.mk d none) st),
            MutEvent.callSuccess d vars ctx]
        ∧ (settleMut (Envelope.mk d (none : Option E)) st).isSuccess = true
        ∧ (settleMut (Envelope.mk d (none : Option E)) st).data = some d)
    ∧ (∀ (T E B C : Type) (d : Option T) (e : E) (vars : B) (ctx : C)
        (st : MutationState T E),
        mutSettleTrace (Envelope.mk d (some e)) vars ctx st =
          [MutEvent.transitioned (settleMut (Envelope.mk d (some e)) st),
            MutEvent.callError e vars ctx]
        ∧ (settleMut (Envelope.mk d (some e)) st).isError = true
        ∧ (settleMut (Envelope.mk d (some e)) st).error = some e)
    ∧ (∀ (T E B C : Type) (env : Envelope T E) (vars : B) (ctx : C)
        (st : MutationState T E),
        ((mutSettleTrace env vars ctx st).filter isCallbackEvent).length = 1)
    ∧ (settleMut (Envelope.mk (some (User.mk "X")) (none : Option String))
        (mutStart (mutIdle User String))).isSuccess = true
    ∧ (settleMut (Envelope.mk (some (User.mk "X")) (none : Option String))
        (mutStart (mutIdle User String))).data = some (some (User.mk "X"))
    ∧ mutSettleTrace (Envelope.mk (some (User.mk "X")) (none : Option String))
        (User.mk "X") () (mutStart (mutIdle User String)) =
        [MutEvent.transitioned
            (settleMut (Envelope.mk (some (User.mk "X")) none)
              (mutStart (mutIdle User String))),
          MutEvent.callSuccess (some (User.mk "X")) (User.mk "X") ()] := by
  refine ⟨?_, ?_, ?_, rfl, rfl, rfl⟩
  · intro T E B C d vars ctx st
    exact ⟨rfl, rfl, rfl⟩
  · intro T E B C d e vars ctx st
    exact ⟨rfl, rfl, rfl⟩
  · intro T E B C env vars ctx st
    obtain ⟨d, err⟩ := env
    cases err <;> simp [mutSettleTrace, normalize, isCallbackEvent]

end ElysiaAdapter

namespace Benchmark

/-- The latencies of the operations that succeeded, in run order. -/
def successes : List (Option Rat) → List Rat
  | [] => []
  | some l :: rest => l :: successes rest
  | none :: rest => successes rest

/-- The number of operations that threw. -/
def failureCount : List (Option Rat) → Nat
  | [] => 0
  | some _ :: rest => failureCount rest
  | none :: rest => failureCount rest + 1

theorem foldl_loopStep (ops : List (Option Rat)) :
    ∀ (ls : List Rat) (s f : Nat),
      ops.foldl loopStep (ls, s, f) =
        (ls ++ successes ops, s + (successes ops).length, f + failureCount ops) := by
  induction ops with
  | nil => intro ls s f; simp [List.foldl, successes, failureCount]
  | cons o rest ih =>
      intro ls s f
      cases o with
      | some l =>
          rw [List.foldl_cons]
          simp only [loopStep]
          rw [ih]
          simp only [successes, failureCount, Prod.mk.injEq, List.append_assoc,
            List.singleton_append, List.length_cons]
          exact ⟨trivial, by omega, trivial⟩
      | none =>
          rw [List.foldl_cons]
          simp only [loopStep]
          rw [ih]
          simp only [successes, failureCount, Prod.mk.injEq]
          exact ⟨trivial, trivial, by omega⟩

theorem runLoop_eq (ops : List (Option Rat)) :
    runLoop ops =
      (successes ops, (successes ops).length, failureCount ops) := by
  have h := foldl_loopStep ops [] 0 0
  simpa [runLoop] using h

theorem successes_length_add_failureCount (ops : List (Option Rat)) :
    (successes ops).length + failureCount ops = ops.length := by
  induction ops with
  | nil => rfl
  | cons o rest ih =>
      cases o <;> simp only [successes, failureCount, List.length_cons] <;> omega

/-- Claim C10: in the benchmark runners, totalOperations is the sum of
successfulOperations and failedOperations, operationsPerSecond is
computed over all operations including the failed ones, every latency
statistic is a function of the successful operations only, and when no
operation succeeds all latency fields are 0. -/
theorem benchmark_runner_statistics :
    ∀ (ops : List (Option Rat)) (d : Rat),
      (runBenchmark ops d).totalOperations =
          (runBenchmark ops d).successfulOperations +
            (runBenchmark ops d).failedOperations
      ∧ (runBenchmark ops d).totalOperations = ops.length
      ∧ (runBenchmark ops d).successfulOperations = (successes ops).length
      ∧ (runBenchmark ops d).operationsPerSecond = ((ops.length : Rat) / d) * 1000
      ∧ (∀ (ops₂ : List (Option Rat)) (d₂ : Rat),
          successes ops = successes ops₂ →
            (runBenchmark ops d).avgLatencyMs = (runBenchmark ops₂ d₂).avgLatencyMs
            ∧ (runBenchmark ops d).minLatencyMs = (runBenchmark ops₂ d₂).minLatencyMs
            ∧ (runBenchmark ops d).maxLatencyMs = (runBenchmark ops₂ d₂).maxLatencyMs
            ∧ (runBenchmark ops d).p50LatencyMs = (runBenchmark ops₂ d₂).p50LatencyMs
            ∧ (runBenchmark ops d).p95LatencyMs = (runBenchmark ops₂ d₂).p95LatencyMs
            ∧ (runBenchmark ops d).p99LatencyMs = (runBenchmark ops₂ d₂).p99LatencyMs)
      ∧ (successes ops = [] →
          (runBenchmark ops d).avgLatencyMs = 0
          ∧ (runBenchmark ops d).minLatencyMs = 0
          ∧ (runBenchmark ops d).maxLatencyMs = 0
          ∧ (runBenchmark ops d).p50LatencyMs = 0
          ∧ (runBenchmark ops d).p95LatencyMs = 0
          ∧ (runBenchmark ops d).p99LatencyMs = 0) := by
  intro ops d
  have hc := successes_length_add_failureCount ops
  refine ⟨rfl, ?_, ?_, ?_, ?_, ?_⟩
  · simp [runBenchmark, runLoop_eq, hc]
  · simp [runBenchmark, runLoop_eq]
  · simp only [runBenchmark, runLoop_eq]
    rw [← hc]
  · intro ops₂ d₂ hss
    refine ⟨?_, ?_, ?_, ?_, ?_, ?_⟩ <;> simp [runBenchmark, runLoop_eq, hss]
  · intro hempty
    refine ⟨?_, ?_, ?_, ?_, ?_, ?_⟩ <;>
      simp [runBenchmark, runLoop_eq, hempty, List.insertionSort]

/-- Witness for claim C10: the latency statistics of two runs agreeing
on their successful operations coincide even though their failure
counts and durations differ, and a run with no successful operation has
zero latency statistics. -/
theorem benchmark_runner_statistics_witness :
    ((runBenchmark [some 5, none] 2).avgLatencyMs =
        (runBenchmark [none, some 5, none] 7).avgLatencyMs
      ∧ (runBenchmark [some 5, none] 2).p99LatencyMs =
        (runBenchmark [none, some 5, none] 7).p99LatencyMs)
    ∧ ((runBenchmark [none, none] 2).avgLatencyMs = 0
      ∧ (runBenchmark [none, none] 2).maxLatencyMs = 0) := by
  have h₁ := (benchmark_runner_statistics [some 5, none] 2).2.2.2.2.1
    [none, some 5, none] 7 (by decide)
  have h₂ := (benchmark_runner_statistics [none, none] 2).2.2.2.2.2 (by decide)
  exact ⟨⟨h₁.1, h₁.2.2.2.2.2⟩, ⟨h₂.1, h₂.2.2.1⟩⟩

end Benchmark
